import Mathlib

/-!
Verification development for the MercorTest hiring-dashboard repository.

The definitions below are shallow embeddings of the engine logic of the
repository:
* the candidate scoring function and the greedy team optimizer, embedded
  from the Python code in `roadmap.md` (`calculate_candidate_score`,
  `optimize_team`);
* the skill parser `parseSkills` from
  `frontend/src/components/Compare.js`;
* the aggregate chemistry metrics (`calculateSkillDiversity`,
  `calculateExperienceBalance`, `calculateGeographicSpread`,
  `generateSkillDistribution`) from the TeamChemistry component;
* the interactive `addToTeam` handler from `App.js` and
  `CandidateExplorer.js`.

JavaScript/Python machine-level string helpers (`trim`, `split(',')`,
`includes`, `JSON.parse` restricted to the shapes the code consumes) are
embedded character-by-character so that every definition is executable by
the kernel.
-/

namespace Hiring

/-! ### JavaScript string primitives, embedded at the character level -/

/-- The double-quote character, written via its code point. -/
def quoteChar : Char := Char.ofNat 34

/-- The backslash character, written via its code point. -/
def backslashChar : Char := Char.ofNat 92

/-- JS `String.prototype.trim()`: drop whitespace at both ends. -/
def jsTrim (s : String) : String :=
  String.mk (((s.data.dropWhile Char.isWhitespace).reverse.dropWhile
    Char.isWhitespace).reverse)

/-- Split a character list at commas, JS `split(',')` semantics:
`"".split(',') = [""]`, `"a,".split(',') = ["a", ""]`. -/
def splitCommaAux : List Char → List Char → List (List Char)
  | acc, [] => [acc.reverse]
  | acc, c :: cs =>
    if c == ',' then acc.reverse :: splitCommaAux [] cs
    else splitCommaAux (c :: acc) cs

/-- JS `s.split(',')`. -/
def splitComma (s : String) : List String :=
  (splitCommaAux [] s.data).map String.mk

/-- `charsStartWith needle hay`: `needle` is an initial run of `hay`. -/
def charsStartWith : List Char → List Char → Bool
  | [], _ => true
  | _ :: _, [] => false
  | a :: as, b :: bs => a == b && charsStartWith as bs

/-- `charsContain needle hay`: `needle` occurs contiguously in `hay`. -/
def charsContain (needle : List Char) : List Char → Bool
  | [] => charsStartWith needle []
  | c :: rest => charsStartWith needle (c :: rest) || charsContain needle rest

/-- JS `hay.includes(needle)`. -/
def strIncludes (hay needle : String) : Bool :=
  charsContain needle.data hay.data

/-- JS `s.split(',')[0]`: the segment of `s` before the first comma. -/
def firstCommaField (s : String) : String :=
  String.mk (s.data.takeWhile (fun c => c != ','))

/-- JS `s.startsWith('[')`. -/
def startsWithBracket (s : String) : Bool :=
  match s.data with
  | c :: _ => c == '['
  | [] => false

/-- JS `s.endsWith(']')`. -/
def endsWithBracket (s : String) : Bool :=
  match s.data.getLast? with
  | some c => c == ']'
  | none => false

/-! ### A model of `JSON.parse` restricted to arrays of string literals

`JSON.parse` is a platform built-in, not repository code.  The repository
only ever feeds its result to `Array.isArray` checks and string-element
iteration, so it is embedded as a parser recognising exactly JSON arrays of
string literals (with the common escapes); any other input — including the
malformed inputs on which the real `JSON.parse` throws — yields `none`,
which the embeddings of the surrounding `try`/`catch` blocks map to the
empty list. -/

/-- Decode a single character following a backslash in a JSON string
literal.  Unsupported escapes make the whole parse fail. -/
def unescapeChar (c : Char) : Option Char :=
  if c == quoteChar then some quoteChar
  else if c == backslashChar then some backslashChar
  else if c == '/' then some '/'
  else if c == 'n' then some (Char.ofNat 10)
  else if c == 't' then some (Char.ofNat 9)
  else if c == 'r' then some (Char.ofNat 13)
  else none

/-- Parse the body of a JSON string literal (the opening quote already
consumed), returning the decoded string and the remaining characters. -/
def strLitAux : List Char → List Char → Option (String × List Char)
  | _, [] => none
  | acc, c :: cs =>
    if c == quoteChar then some (String.mk acc.reverse, cs)
    else if c == backslashChar then
      match cs with
      | [] => none
      | e :: cs2 =>
        match unescapeChar e with
        | some d => strLitAux (d :: acc) cs2
        | none => none
    else strLitAux (c :: acc) cs

/-- Drop leading JSON whitespace. -/
def skipWs (cs : List Char) : List Char :=
  cs.dropWhile Char.isWhitespace

/-- Parse a non-empty comma-separated run of string literals followed by a
closing bracket and end of input.  `fuel` bounds the recursion. -/
def parseArrItems : Nat → List Char → Option (List String)
  | 0, _ => none
  | fuel + 1, cs =>
    match skipWs cs with
    | [] => none
    | c :: rest =>
      if c == quoteChar then
        match strLitAux [] rest with
        | none => none
        | some (s, rest2) =>
          match skipWs rest2 with
          | [] => none
          | d :: rest3 =>
            if d == ',' then (parseArrItems fuel rest3).map (fun xs => s :: xs)
            else if d == ']' then
              if skipWs rest3 = [] then some [s] else none
            else none
      else none

/-- The restricted `JSON.parse` model: accept exactly a JSON array of
string literals, possibly surrounded by whitespace. -/
def parseJsonStringArray (s : String) : Option (List String) :=
  match skipWs s.data with
  | c :: rest =>
    if c == '[' then
      match skipWs rest with
      | d :: rest2 =>
        if d == ']' then
          if skipWs rest2 = [] then some [] else none
        else parseArrItems (rest.length + 1) rest
      | [] => none
    else none
  | [] => none

/-! ### Scoring engine (`calculate_candidate_score`, roadmap.md) -/

/-- The `education` dictionary of a raw candidate record: only its
`highest_level` entry is read by the code. -/
structure Education where
  highest_level : Option String
deriving DecidableEq

/-- A raw candidate record as consumed by `calculate_candidate_score`:
exactly the fields the function reads.  `education = none` models a record
without (or with a falsy) `education` dictionary; `annual_salary_expectation`
models `candidate.get('annual_salary_expectation', {}).get('full-time', 0)`
with `none` for an absent value. -/
structure ScoreCand where
  name : String
  email : String
  skills : List String
  work_experiences : List String
  education : Option Education
  annual_salary_expectation : Option Int
deriving DecidableEq

/-- The fixed high-demand skill list of `calculate_candidate_score`. -/
def highDemandSkills : List String :=
  ["React", "JavaScript", "Python", "Node.js", "TypeScript", "Java"]

/-- Skills subscore:
`min(min(len(skills) * 2, 20) + 5 * |{occurrences in high-demand list}|, 30)`. -/
def skillsScore (c : ScoreCand) : Nat :=
  min (min (c.skills.length * 2) 20
    + 5 * (c.skills.filter (fun s => highDemandSkills.contains s)).length) 30

/-- Experience subscore: `min(len(work_experiences) * 8, 25)`. -/
def experienceScore (c : ScoreCand) : Nat :=
  min (c.work_experiences.length * 8) 25

/-- `education.get('highest_level')` after `candidate.get('education', {})`. -/
def highestLevel (c : ScoreCand) : Option String :=
  c.education.bind Education.highest_level

/-- Education subscore: the code awards 20 for `"Master's"`, 15 for
`"Bachelor's"`, and nothing for any other value (including `"Doctorate"`). -/
def educationScore (c : ScoreCand) : Nat :=
  if highestLevel c = some "Master's" then 20
  else if highestLevel c = some "Bachelor's" then 15
  else 0

/-- Value subscore: inverse step function of the salary expectation, with a
missing salary defaulting to 0. -/
def valueScore (c : ScoreCand) : Nat :=
  let salary := c.annual_salary_expectation.getD 0
  if salary < 60000 then 15
  else if salary < 80000 then 10
  else if salary < 100000 then 5
  else 0

/-- Profile completeness subscore: two points per truthy field among name,
email, skills, work experiences and education. -/
def completenessScore (c : ScoreCand) : Nat :=
  2 * ((if c.name ≠ "" then 1 else 0)
    + (if c.email ≠ "" then 1 else 0)
    + (if c.skills ≠ [] then 1 else 0)
    + (if c.work_experiences ≠ [] then 1 else 0)
    + (if c.education.isSome then 1 else 0))

/-- `calculate_candidate_score` from roadmap.md: the sum of the five
subscores, capped at 100. -/
def calculate_candidate_score (c : ScoreCand) : Nat :=
  min (skillsScore c + experienceScore c + educationScore c
    + valueScore c + completenessScore c) 100

/-! ### Team composition optimizer (`optimize_team`, roadmap.md)

The Python endpoint hard-codes a team size of 5, a candidate window of 50
and a location-diversity floor of 3; the embedding takes these three
constants as parameters so that claims stated for other target sizes can be
instantiated, and `optimize_team pool 5 50 3` is the endpoint itself. -/

/-- A candidate dictionary as consumed by `optimize_team`: the fields the
loop reads (`calculated_score`, `location` via `.get('location', '')`,
`skills` via `.get('skills', [])`), plus `name` to identify candidates. -/
structure OptCand where
  name : String
  calculated_score : Nat
  location : Option String
  skills : List String
deriving DecidableEq

/-- Stable descending insertion: place `c` before the first candidate whose
score is not larger, matching Python's stable `sorted(..., reverse=True)`. -/
def insertByScore (c : OptCand) : List OptCand → List OptCand
  | [] => [c]
  | x :: xs =>
    if x.calculated_score ≤ c.calculated_score then c :: x :: xs
    else x :: insertByScore c xs

/-- `sorted(candidates, key=lambda x: x['calculated_score'], reverse=True)`
(stable). -/
def sortByScoreDesc : List OptCand → List OptCand
  | [] => []
  | x :: xs => insertByScore x (sortByScoreDesc xs)

/-- The mutable loop state of `optimize_team`: the selected team in
admission order, the set of used locations (kept as a duplicate-free list in
insertion order) and the covered skills. -/
structure OptState where
  selected : List OptCand
  usedLocations : List String
  skillCoverage : List String
deriving DecidableEq

/-- One iteration of the `optimize_team` loop: admit the candidate when
`(location_diverse or skill_diverse) and len(selected) < targetSize`. -/
def admitStep (targetSize floor : Nat) (st : OptState) (c : OptCand) :
    OptState :=
  let location := firstCommaField (c.location.getD "")
  let cskills := c.skills.dedup
  let locationDiverse :=
    !(st.usedLocations.contains location)
      || decide (st.usedLocations.length < floor)
  let skillDiverse := cskills.any (fun s => !(st.skillCoverage.contains s))
  if (locationDiverse || skillDiverse)
      && decide (st.selected.length < targetSize) then
    { selected := st.selected ++ [c]
      usedLocations :=
        if st.usedLocations.contains location then st.usedLocations
        else st.usedLocations ++ [location]
      skillCoverage :=
        st.skillCoverage
          ++ cskills.filter (fun s => !(st.skillCoverage.contains s)) }
  else st

/-- `optimize_team`: sort by score descending, restrict to the window, scan
with the admission rule, return the selected team.  The endpoint in
roadmap.md is `optimize_team pool 5 50 3`. -/
def optimize_team (pool : List OptCand) (targetSize window floor : Nat) :
    List OptCand :=
  (((sortByScoreDesc pool).take window).foldl
    (admitStep targetSize floor) ⟨[], [], []⟩).selected

/-! ### Skill parsing (`parseSkills`, Compare.js) -/

/-- The dynamically-typed `skills` value of a raw record: a string, a
native array of strings, or anything else (undefined, a number, …). -/
inductive SkillsVal where
  | str : String → SkillsVal
  | arr : List String → SkillsVal
  | other : SkillsVal
deriving DecidableEq

/-- `parseSkills` from Compare.js: for a string with non-blank trim, JSON
parsing is attempted exactly when the (untrimmed) string starts with `[`
and ends with `]` — a failed JSON parse is caught and yields `[]`; any
other non-blank string is comma-split, trimmed and stripped of empty
tokens; every non-string input yields `[]`. -/
def parseSkills (v : SkillsVal) : List String :=
  match v with
  | .str s =>
    if jsTrim s ≠ "" then
      if startsWithBracket s && endsWithBracket s then
        (parseJsonStringArray s).getD []
      else ((splitComma s).map jsTrim).filter (fun t => t ≠ "")
    else []
  | _ => []

/-- The skill parse as the spec words it (§4.2): attempt the structured
parse first on every string, on failure fall back to comma-splitting, on
total failure yield the empty set.  Stated for comparison with the
code-derived `parseSkills`. -/
def parseSkillsSpec (s : String) : List String :=
  match parseJsonStringArray s with
  | some xs => xs
  | none => ((splitComma s).map jsTrim).filter (fun t => t ≠ "")

/-! ### Team chemistry aggregates (TeamChemistry component) -/

/-- A team member as consumed by the chemistry aggregates: the fields the
four functions read. -/
structure Member where
  original_skills : SkillsVal
  experience_level : Option String
  country : Option String
deriving DecidableEq

/-- The skill-extraction step shared by `calculateSkillDiversity` and
`generateSkillDistribution`: a string is `JSON.parse`d inside a
`try`/`catch` (a failure contributes nothing), a native array passes
through unchanged, and any other value contributes nothing. -/
def rawSkillsOf (v : SkillsVal) : List String :=
  match v with
  | .str s => (parseJsonStringArray s).getD []
  | .arr xs => xs
  | .other => []

/-- The member's contributed skills. -/
def memberSkills (m : Member) : List String :=
  rawSkillsOf m.original_skills

/-- JS `Math.round`: round half toward positive infinity. -/
def jsRound (q : ℚ) : ℤ := ⌊q + 1 / 2⌋

/-- `calculateSkillDiversity`: 0 for an empty team, else five points per
distinct lower-cased skill, capped at 100. -/
def calculateSkillDiversity (team : List Member) : Nat :=
  if team.isEmpty then 0
  else
    min 100
      ((((team.map (fun m => (memberSkills m).map String.toLower)).flatten).dedup).length
        * 5)

/-- The numeric level of one member:
senior ↦ 3, mid ↦ 2, junior ↦ 1, anything else ↦ 2. -/
def expLevelScore (lvl : String) : Nat :=
  let l := String.toLower lvl
  if strIncludes l "senior" then 3
  else if strIncludes l "mid" then 2
  else if strIncludes l "junior" then 1
  else 2

/-- `calculateExperienceBalance`: 0 for an empty team, else the rounded
average level scaled by 30. -/
def calculateExperienceBalance (team : List Member) : ℤ :=
  if team.isEmpty then 0
  else
    let levels := team.map
      (fun m => expLevelScore (m.experience_level.getD "unknown"))
    jsRound (((levels.sum : ℚ) / (levels.length : ℚ)) * 30)

/-- `calculateGeographicSpread`: 0 for an empty team, else 25 points per
distinct truthy country, capped at 100. -/
def calculateGeographicSpread (team : List Member) : Nat :=
  if team.isEmpty then 0
  else
    min 100
      ((((team.filterMap Member.country).filter (fun s => s ≠ "")).dedup).length
        * 25)

/-- The fixed category → reference-token table of
`generateSkillDistribution`. -/
def skillCategories : List (String × List String) :=
  [("Frontend", ["react", "vue", "angular", "javascript", "typescript",
      "html", "css"]),
   ("Backend", ["node.js", "python", "java", "spring", "django", "express"]),
   ("Database", ["sql", "mongodb", "postgresql", "mysql", "redis"]),
   ("Cloud", ["aws", "azure", "gcp", "docker", "kubernetes"]),
   ("DevOps", ["jenkins", "ci/cd", "terraform", "ansible"]),
   ("Mobile", ["react native", "flutter", "ios", "android", "swift",
      "kotlin"])]

/-- One row of the skill-distribution output. -/
structure SkillDistEntry where
  category : String
  count : Nat
  percentage : ℤ
deriving DecidableEq

/-- How many member-skill occurrences credit a category: each skill whose
lower-cased text contains one of the category's reference tokens. -/
def categoryCount (team : List Member) (catSkills : List String) : Nat :=
  (((team.map memberSkills).flatten).filter
    (fun sk => catSkills.any (fun cs => strIncludes (String.toLower sk) cs))).length

/-- `generateSkillDistribution`: empty output for an empty team, else one
entry per category with its occurrence count and rounded percentage of the
team size. -/
def generateSkillDistribution (team : List Member) : List SkillDistEntry :=
  if team.isEmpty then []
  else
    skillCategories.map (fun p =>
      let cnt := categoryCount team p.2
      { category := p.1
        count := cnt
        percentage :=
          if team.length > 0 then
            jsRound (((cnt : ℚ) / (team.length : ℚ)) * 100)
          else 0 })

/-! ### Interactive team selection (`addToTeam`, App.js / CandidateExplorer.js) -/

/-- A candidate as handled by the team-management functions: its stable
`id` plus display data. -/
structure AppCandidate where
  id : Nat
  name : String
deriving DecidableEq

/-- `addToTeam` from App.js (capacity 8) and CandidateExplorer.js
(capacity 5), with the capacity as a parameter: append the candidate iff
the team is below capacity and no member already has their id. -/
def addToTeam (cap : Nat) (team : List AppCandidate) (c : AppCandidate) :
    List AppCandidate :=
  if decide (team.length < cap) && !(team.any (fun x => x.id == c.id)) then
    team ++ [c]
  else team

/-! ### Concrete records used by scenario theorems -/

/-- A candidate whose highest education level is a Doctorate. -/
def doctorateCand : ScoreCand :=
  ⟨"Grace", "g@example.com", [], [], some ⟨some "Doctorate"⟩, none⟩

/-- A candidate whose highest education level is a Master's. -/
def masterCand : ScoreCand :=
  ⟨"Mae", "m@example.com", [], [], some ⟨some "Master's"⟩, none⟩

/-- A candidate whose highest education level is a Bachelor's. -/
def bachelorCand : ScoreCand :=
  ⟨"Ben", "b@example.com", [], [], some ⟨some "Bachelor's"⟩, none⟩

/-- Scenario candidate 1: score 90, skills React and Python. -/
def cand1 : OptCand := ⟨"C1", 90, none, ["React", "Python"]⟩

/-- Scenario candidate 2: score 80, skill React only. -/
def cand2 : OptCand := ⟨"C2", 80, none, ["React"]⟩

/-- Scenario candidate 3: score 70, skill Java only. -/
def cand3 : OptCand := ⟨"C3", 70, none, ["Java"]⟩

/-- The three-candidate scenario pool of spec §8. -/
def scenarioPool : List OptCand := [cand1, cand2, cand3]

/-- A five-candidate pool spanning three locations, all with the same
single skill; candidates 4 and 5 repeat location A. -/
def homoPool : List OptCand :=
  [⟨"H1", 90, some "A", ["Python"]⟩,
   ⟨"H2", 89, some "B", ["Python"]⟩,
   ⟨"H3", 88, some "C", ["Python"]⟩,
   ⟨"H4", 87, some "A", ["Python"]⟩,
   ⟨"H5", 86, some "A", ["Python"]⟩]

/-! ### Helper lemmas -/

/-- One optimizer step never grows the team past the target size. -/
lemma admitStep_selected_length_le (t f : Nat) (st : OptState) (c : OptCand)
    (h : st.selected.length ≤ t) :
    ((admitStep t f st c).selected).length ≤ t := by
  unfold admitStep
  dsimp only
  split
  next hc =>
    have hlt : st.selected.length < t :=
      of_decide_eq_true ((Bool.and_eq_true _ _).mp hc).2
    simp only [List.length_append, List.length_cons, List.length_nil]
    omega
  next => exact h

/-- Scanning any candidate list preserves the team-size bound. -/
lemma foldl_admit_length (t f : Nat) :
    ∀ (l : List OptCand) (st : OptState), st.selected.length ≤ t →
      (((l.foldl (admitStep t f) st)).selected).length ≤ t
  | [], _, h => h
  | c :: cs, st, h =>
    foldl_admit_length t f cs (admitStep t f st c)
      (admitStep_selected_length_le t f st c h)

/-! ### Claim theorems -/

/-- C1 (counterexample): the education subscore of a candidate whose
highest education level is Doctorate is 0, not the 20 the claim states. -/
theorem educationScore_doctorate_cex :
    educationScore doctorateCand = 0 ∧ educationScore doctorateCand ≠ 20 := by
  decide

/-- C1 (amended): the education subscore gives 20 points exactly to
`"Master's"`, 15 to `"Bachelor's"`, and 0 to every other education level,
including `"Doctorate"`. -/
theorem educationScore_tiers (c : ScoreCand) :
    (highestLevel c = some "Master's" → educationScore c = 20) ∧
    (highestLevel c = some "Bachelor's" → educationScore c = 15) ∧
    (highestLevel c ≠ some "Master's" → highestLevel c ≠ some "Bachelor's" →
      educationScore c = 0) := by
  refine ⟨fun h => ?_, fun h => ?_, fun h1 h2 => ?_⟩
  · simp [educationScore, h]
  · simp [educationScore, h]
  · simp [educationScore, h1, h2]

/-- C1 (witness): the amended tiers evaluated on concrete candidates. -/
theorem educationScore_tiers_w :
    educationScore masterCand = 20 ∧ educationScore bachelorCand = 15 ∧
      educationScore doctorateCand = 0 :=
  ⟨(educationScore_tiers masterCand).1 (by decide),
   (educationScore_tiers bachelorCand).2.1 (by decide),
   (educationScore_tiers doctorateCand).2.2 (by decide) (by decide)⟩

/-- C2 (counterexample): on the scenario pool with target size 2 the
optimizer does not return candidates 1 and 3. -/
theorem optimize_scenario_cex :
    optimize_team scenarioPool 2 50 3 ≠ [cand1, cand3] := by
  decide

/-- C2 (amended): on the scenario pool with target size 2 the optimizer
returns candidates 1 and 2 — candidate 2 is admitted because fewer than 3
distinct locations are in use, so the location-diversity disjunct of the
admission rule holds for it. -/
theorem optimize_scenario_team :
    optimize_team scenarioPool 2 50 3 = [cand1, cand2] := by
  decide

/-- C3 (counterexample): a pool of 5 candidates (three locations, one
shared skill) yields a team of 3 < 5 although the pool has at least 5
candidates and there is no budget ceiling, refuting the claimed equality
`|team| = targetSize`. -/
theorem optimize_team_not_exact_cex :
    (optimize_team homoPool 5 50 3).length = 3 ∧
      (optimize_team homoPool 5 50 3).length ≠ 5 ∧
      5 ≤ homoPool.length := by
  decide

/-- C3 (amended): for every pool and every choice of target size, window
and diversity floor, the returned team has at most targetSize members;
equality is not guaranteed even when the pool is at least as large as the
target (a homogeneous pool yields a smaller team). -/
theorem optimize_team_size_bound (pool : List OptCand)
    (targetSize window floor : Nat) :
    (optimize_team pool targetSize window floor).length ≤ targetSize :=
  foldl_admit_length targetSize floor _ _ (Nat.zero_le _)

/-- C4 (counterexample): skill parsing is not idempotent — re-parsing the
already-parsed skills of the string `"React"` yields the empty list, not
the parsed list. -/
theorem parseSkills_not_idempotent_cex :
    parseSkills (SkillsVal.arr (parseSkills (SkillsVal.str "React"))) ≠
      parseSkills (SkillsVal.str "React") := by
  decide

/-- C4 (amended): the skill parse used by the chemistry aggregates is a
no-op on already-parsed (native list) values, so re-normalizing through it
is idempotent; but `parseSkills` of Compare.js maps every non-string input,
including an already-parsed list, to the empty list, so normalization
through it is not idempotent. -/
theorem normalization_fixed_point :
    (∀ v : SkillsVal,
        rawSkillsOf (SkillsVal.arr (rawSkillsOf v)) = rawSkillsOf v) ∧
      (∀ xs : List String, parseSkills (SkillsVal.arr xs) = []) :=
  ⟨fun _ => rfl, fun _ => rfl⟩

/-- C5: every composite score is the sum of the five subscores capped at
100, each subscore is independently capped (skills ≤ 30, experience ≤ 25,
education ≤ 20, value ≤ 15, completeness ≤ 10), and the result lies in
[0, 100]. -/
theorem score_bounds (c : ScoreCand) :
    skillsScore c ≤ 30 ∧ experienceScore c ≤ 25 ∧ educationScore c ≤ 20 ∧
      valueScore c ≤ 15 ∧ completenessScore c ≤ 10 ∧
      calculate_candidate_score c =
        min (skillsScore c + experienceScore c + educationScore c
          + valueScore c + completenessScore c) 100 ∧
      calculate_candidate_score c ≤ 100 := by
  refine ⟨min_le_right _ _, min_le_right _ _, ?_, ?_, ?_, rfl,
    min_le_right _ _⟩
  · unfold educationScore
    split_ifs <;> omega
  · simp only [valueScore]
    split_ifs <;> omega
  · unfold completenessScore
    split_ifs <;> omega

/-- C6: the value subscore is 15 below a 60000 salary expectation, 10
below 80000, 5 below 100000, 0 otherwise, and an absent or zero salary
expectation lands in the cheapest bracket with 15 points. -/
theorem valueScore_brackets (c : ScoreCand) :
    (c.annual_salary_expectation = none → valueScore c = 15) ∧
    (c.annual_salary_expectation = some 0 → valueScore c = 15) ∧
    (∀ s : Int, c.annual_salary_expectation = some s → s < 60000 →
      valueScore c = 15) ∧
    (∀ s : Int, c.annual_salary_expectation = some s → 60000 ≤ s →
      s < 80000 → valueScore c = 10) ∧
    (∀ s : Int, c.annual_salary_expectation = some s → 80000 ≤ s →
      s < 100000 → valueScore c = 5) ∧
    (∀ s : Int, c.annual_salary_expectation = some s → 100000 ≤ s →
      valueScore c = 0) := by
  refine ⟨fun h => ?_, fun h => ?_, fun s h hs => ?_, fun s h hs1 hs2 => ?_,
    fun s h hs1 hs2 => ?_, fun s h hs => ?_⟩ <;>
    simp only [valueScore, h, Option.getD_some, Option.getD_none] <;>
    split_ifs <;> omega

/-- C6 (witness): the brackets evaluated on concrete candidates, covering
the absent, zero, 50000, 70000, 90000 and 120000 salary expectations. -/
theorem valueScore_brackets_w :
    valueScore ⟨"N", "", [], [], none, none⟩ = 15 ∧
      valueScore ⟨"Z", "", [], [], none, some 0⟩ = 15 ∧
      valueScore ⟨"A", "", [], [], none, some 50000⟩ = 15 ∧
      valueScore ⟨"B", "", [], [], none, some 70000⟩ = 10 ∧
      valueScore ⟨"C", "", [], [], none, some 90000⟩ = 5 ∧
      valueScore ⟨"D", "", [], [], none, some 120000⟩ = 0 :=
  ⟨(valueScore_brackets _).1 rfl,
   (valueScore_brackets _).2.1 rfl,
   (valueScore_brackets _).2.2.1 50000 rfl (by decide),
   (valueScore_brackets _).2.2.2.1 70000 rfl (by decide) (by decide),
   (valueScore_brackets _).2.2.2.2.1 90000 rfl (by decide) (by decide),
   (valueScore_brackets _).2.2.2.2.2 120000 rfl (by decide)⟩

/-- C7: the experience subscore is `min(total_experiences * 8, 25)` and
appending one more work experience, all other fields fixed, never
decreases it. -/
theorem experienceScore_formula_mono (c : ScoreCand) (e : String) :
    experienceScore c = min (c.work_experiences.length * 8) 25 ∧
      experienceScore c ≤
        experienceScore { c with work_experiences := c.work_experiences ++ [e] } := by
  refine ⟨rfl, ?_⟩
  simp only [experienceScore, List.length_append, List.length_cons,
    List.length_nil]
  omega

/-- C8 (counterexample): on the input `"[React]"` the code returns the
empty list while the spec's parse-then-comma-fallback algorithm returns
`["[React]"]` — a failed structured parse does not fall back to
comma-splitting. -/
theorem parseSkills_no_comma_fallback_cex :
    parseSkills (SkillsVal.str "[React]") = [] ∧
      parseSkillsSpec "[React]" = ["[React]"] ∧
      parseSkills (SkillsVal.str "[React]") ≠ parseSkillsSpec "[React]" := by
  decide

/-- C8 (amended): skill parsing is total; the structured parse is attempted
exactly when the string starts with `[` and ends with `]`, and its failure
yields the empty set (no comma fallback); other non-blank strings are
comma-split; blank strings and non-string inputs yield the empty set. -/
theorem parseSkills_total_guarded (s : String) :
    (jsTrim s = "" → parseSkills (SkillsVal.str s) = []) ∧
    ((startsWithBracket s && endsWithBracket s) = true →
      parseJsonStringArray s = none → jsTrim s ≠ "" →
      parseSkills (SkillsVal.str s) = []) ∧
    (∀ xs, (startsWithBracket s && endsWithBracket s) = true →
      parseJsonStringArray s = some xs → jsTrim s ≠ "" →
      parseSkills (SkillsVal.str s) = xs) ∧
    ((startsWithBracket s && endsWithBracket s) = false → jsTrim s ≠ "" →
      parseSkills (SkillsVal.str s) =
        ((splitComma s).map jsTrim).filter (fun t => t ≠ "")) ∧
    (∀ xs : List String, parseSkills (SkillsVal.arr xs) = []) ∧
    parseSkills SkillsVal.other = [] := by
  refine ⟨fun h => ?_, fun h1 h2 h3 => ?_, fun xs h1 h2 h3 => ?_,
    fun h1 h2 => ?_, fun _ => rfl, rfl⟩
  · simp [parseSkills, h]
  · simp [parseSkills, h1, h2, h3]
  · simp [parseSkills, h1, h2, h3]
  · simp [parseSkills, h1, h2]

/-- C8 (witness): the guarded behavior evaluated on blank, malformed
bracketed, well-formed bracketed, comma-separated and non-string inputs. -/
theorem parseSkills_total_guarded_w :
    parseSkills (SkillsVal.str "") = [] ∧
      parseSkills (SkillsVal.str "[React]") = [] ∧
      parseSkills (SkillsVal.str "[\"React\"]") = ["React"] ∧
      parseSkills (SkillsVal.str "a,b") =
        ((splitComma "a,b").map jsTrim).filter (fun t => t ≠ "") ∧
      parseSkills (SkillsVal.arr ["React"]) = [] ∧
      parseSkills SkillsVal.other = [] :=
  ⟨(parseSkills_total_guarded "").1 (by decide),
   (parseSkills_total_guarded "[React]").2.1 (by decide) (by decide)
     (by decide),
   (parseSkills_total_guarded "[\"React\"]").2.2.1 ["React"] (by decide)
     (by decide) (by decide),
   (parseSkills_total_guarded "a,b").2.2.2.1 (by decide) (by decide),
   (parseSkills_total_guarded "x").2.2.2.2.1 ["React"],
   (parseSkills_total_guarded "x").2.2.2.2.2⟩

/-- C9: each aggregate — skill diversity, experience balance, geographic
spread, skill distribution — returns a zero or empty result on the empty
team. -/
theorem aggregates_empty :
    calculateSkillDiversity [] = 0 ∧ calculateExperienceBalance [] = 0 ∧
      calculateGeographicSpread [] = 0 ∧ generateSkillDistribution [] = [] :=
  ⟨rfl, rfl, rfl, rfl⟩

/-- C10: `addToTeam` leaves the team unchanged when the candidate's id is
already present or the team is at capacity, otherwise appends exactly that
candidate; consequently it preserves distinctness of ids and the capacity
bound. -/
theorem addToTeam_spec (cap : Nat) (team : List AppCandidate)
    (c : AppCandidate) :
    (team.any (fun x => x.id == c.id) = true → addToTeam cap team c = team) ∧
    (cap ≤ team.length → addToTeam cap team c = team) ∧
    (team.any (fun x => x.id == c.id) = false → team.length < cap →
      addToTeam cap team c = team ++ [c]) ∧
    ((team.map AppCandidate.id).Nodup →
      ((addToTeam cap team c).map AppCandidate.id).Nodup) ∧
    (team.length ≤ cap → (addToTeam cap team c).length ≤ cap) := by
  refine ⟨fun h => ?_, fun h => ?_, fun h1 h2 => ?_, fun hnd => ?_,
    fun h => ?_⟩
  · simp [addToTeam, h]
  · simp [addToTeam, Nat.not_lt.mpr h]
  · simp [addToTeam, h1, h2]
  · unfold addToTeam
    split
    next hc =>
      have hany : team.any (fun x => x.id == c.id) = false := by
        have := ((Bool.and_eq_true _ _).mp hc).2
        simpa using this
      have hall : ∀ x ∈ team, ¬x.id = c.id := by
        simp only [List.any_eq_false, beq_iff_eq] at hany
        exact hany
      rw [List.map_append]
      refine List.Nodup.append hnd (List.nodup_singleton _) ?_
      intro a ha hb
      rw [List.map_singleton, List.mem_singleton] at hb
      obtain ⟨x, hx, rfl⟩ := List.mem_map.mp ha
      exact hall x hx hb
    next => exact hnd
  · unfold addToTeam
    split
    next hc =>
      have hlt : team.length < cap :=
        of_decide_eq_true ((Bool.and_eq_true _ _).mp hc).1
      simp only [List.length_append, List.length_cons, List.length_nil]
      omega
    next => exact h

/-- C10 (witness): the three behaviors and the invariants at capacity 2:
a duplicate id is refused, a full team is unchanged, and a fresh candidate
is appended. -/
theorem addToTeam_spec_w :
    addToTeam 2 [⟨1, "A"⟩] ⟨1, "B"⟩ = [⟨1, "A"⟩] ∧
      addToTeam 1 [⟨1, "A"⟩] ⟨2, "B"⟩ = [⟨1, "A"⟩] ∧
      addToTeam 2 [⟨1, "A"⟩] ⟨2, "B"⟩ = [⟨1, "A"⟩, ⟨2, "B"⟩] ∧
      ((addToTeam 2 [⟨1, "A"⟩] ⟨2, "B"⟩).map AppCandidate.id).Nodup ∧
      (addToTeam 2 [⟨1, "A"⟩] ⟨2, "B"⟩).length ≤ 2 :=
  ⟨(addToTeam_spec 2 [⟨1, "A"⟩] ⟨1, "B"⟩).1 (by decide),
   (addToTeam_spec 1 [⟨1, "A"⟩] ⟨2, "B"⟩).2.1 (by decide),
   (addToTeam_spec 2 [⟨1, "A"⟩] ⟨2, "B"⟩).2.2.1 (by decide) (by decide),
   (addToTeam_spec 2 [⟨1, "A"⟩] ⟨2, "B"⟩).2.2.2.1 (by decide),
   (addToTeam_spec 2 [⟨1, "A"⟩] ⟨2, "B"⟩).2.2.2.2 (by decide)⟩

end Hiring
